import Mathlib

/-!
Verification of the retropie-utils storage abstraction, metadata index and
reconciliation engine.

The Go sources are shallowly embedded: Go strings are modelled as `List Char`,
epoch-millisecond timestamps as `Int`, and every external call (S3, DynamoDB,
the local file system, the wall clock) is passed in as an explicit oracle
argument describing that call's outcome.  Each model function additionally
returns the list of external effects it performed, in order, so that
"performs no I/O" claims are statable.
-/

namespace RetropieUtils

/-- Go strings are modelled as lists of characters. -/
abbrev Str := List Char

/-- Go `strings.ReplaceAll(s, pat, rep)`: replaces every non-overlapping
occurrence of `pat` in `s` by `rep`, scanning left to right.  (The Go
function inserts `rep` at every position when `pat` is empty; the sources
only call it with the non-empty pattern a single space, and for an empty
pattern this model leaves the string unchanged.) -/
def goReplaceAll (pat rep : Str) (s : Str) : Str :=
  match s with
  | [] => []
  | c :: rest =>
    if h : pat.isPrefixOf (c :: rest) && !pat.isEmpty then
      rep ++ goReplaceAll pat rep (List.drop pat.length (c :: rest))
    else
      c :: goReplaceAll pat rep rest
termination_by s.length
decreasing_by
  · have hp : pat ≠ [] := by
      simp only [Bool.and_eq_true, Bool.not_eq_true', List.isEmpty_eq_false] at h
      exact h.2
    have hl : 1 ≤ pat.length := List.length_pos.mpr hp
    simp only [List.length_drop, List.length_cons]
    omega
  · simp only [List.length_cons]
    omega

/-- Go `strings.ToLower` (the sources only lowercase ASCII file names). -/
def goToLower (s : Str) : Str := s.map Char.toLower

/-- Go `strings.Split(s, sep)` for a single-character separator. -/
def goSplit (sep : Char) : Str → List Str
  | [] => [[]]
  | c :: rest =>
    if c = sep then [] :: goSplit sep rest
    else
      match goSplit sep rest with
      | [] => [[c]]
      | p :: ps => (c :: p) :: ps

/-- Go `strings.Join(parts, sep)`. -/
def goJoin (sep : Str) (parts : List Str) : Str := List.intercalate sep parts

/-- Go `strings.CutSuffix(s, "/")`, keeping only the (possibly trimmed)
string; the source discards the boolean. -/
def cutSuffixSlash (s : Str) : Str :=
  if s.getLast? = some '/' then s.dropLast else s

/-! ## pkg/fs: files -/

/-- FileType from pkg/fs. -/
inductive FileType
  | rom
  | save
  | state
  | other
deriving DecidableEq, Repr

/-- File from pkg/fs: logical directory, absolute local path, base name,
last-modified time (epoch milliseconds) and classified kind. -/
structure File where
  dir : Str
  absolute : Str
  name : Str
  lastModified : Int
  fileType : FileType
deriving DecidableEq, Repr

/-- fileTypeToString from pkg/storage/dynamodb.go (lowercase singular words). -/
def fileTypeToString (fileType : FileType) : Str :=
  match fileType with
  | .rom => "rom".data
  | .save => "save".data
  | .state => "state".data
  | .other => "other".data

/-! ## pkg/storage/dynamodb.go: the metadata index -/

/-- FileMetadata from pkg/storage/dynamodb.go. -/
structure FileMetadata where
  fileIdentifier : Str
  s3Location : Str
  originalFileName : Str
  fileDir : Str
  username : Str
  fileType : Str
  lastModifiedTime : Int
  createdAt : Int
deriving DecidableEq, Repr

/-- normalizeFileName from pkg/storage/dynamodb.go: spaces become
underscores, then the whole name is lowercased. -/
def normalizeFileName (fileName : Str) : Str :=
  goToLower (goReplaceAll " ".data "_".data fileName)

/-- generateFileIdentifier from pkg/storage/dynamodb.go:
owner, logical directory and normalized name joined with number signs. -/
def generateFileIdentifier (username fileDir fileName : Str) : Str :=
  username ++ "#".data ++ fileDir ++ "#".data ++ normalizeFileName fileName

/-! ## Case/space-underscore equivalence of file names (spec wording for C3) -/

/-- Two characters differ at most by letter case or by space-versus-underscore:
they are equal, or both are letters with a common lowercasing, or both are
drawn from space and underscore. -/
def caseSpaceEquivChar (a b : Char) : Bool :=
  a == b
    || (a.isAlpha && b.isAlpha && a.toLower == b.toLower)
    || ((a == ' ' || a == '_') && (b == ' ' || b == '_'))

/-- Two names differ only in letter case or space-versus-underscore:
same length, and character-wise `caseSpaceEquivChar`. -/
def caseSpaceEquiv : Str → Str → Bool
  | [], [] => true
  | a :: as, b :: bs => caseSpaceEquivChar a b && caseSpaceEquiv as bs
  | _, _ => false

/-- The character-level effect of `normalizeFileName`: space becomes
underscore, then lowercase. -/
def normChar (c : Char) : Char :=
  Char.toLower (if c = ' ' then '_' else c)

theorem goReplaceAll_space_underscore (s : Str) :
    goReplaceAll " ".data "_".data s = s.map (fun c => if c = ' ' then '_' else c) := by
  induction s with
  | nil => simp [goReplaceAll]
  | cons c rest ih =>
    rw [goReplaceAll]
    by_cases hc : c = ' '
    · subst hc
      simp [List.isPrefixOf, ih]
    · have hne : (' ' == c) = false := by
        simp [BEq.beq]
        exact fun hcontra => hc hcontra.symm
      simp [List.isPrefixOf, hne, ih, hc]

theorem normalizeFileName_eq_map (s : Str) :
    normalizeFileName s = s.map normChar := by
  unfold normalizeFileName goToLower
  rw [goReplaceAll_space_underscore, List.map_map]
  rfl

theorem caseSpaceEquivChar_norm {a b : Char} (h : caseSpaceEquivChar a b = true) :
    normChar a = normChar b := by
  unfold caseSpaceEquivChar at h
  simp only [Bool.or_eq_true, Bool.and_eq_true, beq_iff_eq] at h
  rcases h with (heq | ⟨⟨ha, hb⟩, hlow⟩) | ⟨ha, hb⟩
  · rw [heq]
  · have hna : a ≠ ' ' := by
      intro hcontra
      rw [hcontra] at ha
      exact absurd ha (by decide)
    have hnb : b ≠ ' ' := by
      intro hcontra
      rw [hcontra] at hb
      exact absurd hb (by decide)
    unfold normChar
    rw [if_neg hna, if_neg hnb]
    exact hlow
  · rcases ha with h | h <;> rcases hb with h' | h' <;> subst h <;> subst h' <;> decide

theorem caseSpaceEquiv_map_norm :
    ∀ {n1 n2 : Str}, caseSpaceEquiv n1 n2 = true → n1.map normChar = n2.map normChar := by
  intro n1
  induction n1 with
  | nil =>
    intro n2 h
    cases n2 with
    | nil => rfl
    | cons b bs => simp [caseSpaceEquiv] at h
  | cons a as ih =>
    intro n2 h
    cases n2 with
    | nil => simp [caseSpaceEquiv] at h
    | cons b bs =>
      unfold caseSpaceEquiv at h
      simp only [Bool.and_eq_true] at h
      rcases h with ⟨hc, hrest⟩
      simp only [List.map_cons]
      rw [caseSpaceEquivChar_norm hc, ih hrest]

/-- C3: for every owner, logical directory, and pair of file names that differ
only in letter case or in spaces versus underscores, the derived file identity
(owner, directory and normalized name joined with number signs, the name
lowercased with spaces replaced by underscores) is equal. -/
theorem identity_case_space_insensitive (username fileDir n1 n2 : Str)
    (h : caseSpaceEquiv n1 n2 = true) :
    generateFileIdentifier username fileDir n1 = generateFileIdentifier username fileDir n2 := by
  unfold generateFileIdentifier
  rw [normalizeFileName_eq_map, normalizeFileName_eq_map, caseSpaceEquiv_map_norm h]

/-- C3 witness: the names differing in case and space-versus-underscore,
such as a saved game named with capitals and spaces, collapse to one identity. -/
theorem identity_case_space_insensitive_witness :
    caseSpaceEquiv "Mario Bros.SAV".data "mario_bros.sav".data = true ∧
      generateFileIdentifier "u".data "gba".data "Mario Bros.SAV".data
        = generateFileIdentifier "u".data "gba".data "mario_bros.sav".data :=
  ⟨by decide, identity_case_space_insensitive "u".data "gba".data
    "Mario Bros.SAV".data "mario_bros.sav".data (by decide)⟩

/-! ## Metadata upsert (StoreFileMetadata in pkg/storage/dynamodb.go) -/

/-- The `FileMetadata` record `StoreFileMetadata` builds before writing it:
all fields are taken from the upload, `lastModifiedTime` and `createdAt`
are the current time, and then — only when the pre-read of the existing
record returned without error and found an item — `createdAt` is replaced
by the existing record's value. -/
def storeFileMetadataRecord (username : Str) (s3Location : Str) (file : File)
    (preRead : Except Nat (Option FileMetadata)) (now : Int) : FileMetadata :=
  let fileIdentifier := generateFileIdentifier username file.dir file.name
  let metadata : FileMetadata :=
    { fileIdentifier := fileIdentifier
      s3Location := s3Location
      originalFileName := file.name
      fileDir := file.dir
      username := username
      fileType := fileTypeToString file.fileType
      lastModifiedTime := now
      createdAt := now }
  match preRead with
  | .ok (some existing) => { metadata with createdAt := existing.createdAt }
  | _ => metadata

/-- Errors surfaced by the storage layer: the NotImplemented sentinel from
pkg/errors, an error returned unwrapped, and an error wrapped with an
operation-context message (eris.Wrap / fmt.Errorf with %w).  External error
causes are modelled as numeric codes. -/
inductive StorageErr
  | notImplemented
  | raw (code : Nat)
  | wrap (ctx : Str) (code : Nat)
deriving DecidableEq, Repr

/-- Full control flow of `StoreFileMetadata`: a disabled index is a silent
no-op; otherwise the record is built (carrying `createdAt` forward when the
pre-read succeeded with an item), marshalled, and put.  The second component
is the item handed to PutItem, `none` when PutItem was never called. -/
def storeFileMetadata (enabled : Bool) (username : Str) (s3Location : Str) (file : File)
    (preRead : Except Nat (Option FileMetadata)) (now : Int)
    (marshalRes : Except Nat Unit) (putRes : Except Nat Unit) :
    Except StorageErr Unit × Option FileMetadata :=
  if !enabled then (.ok (), none)
  else
    let metadata := storeFileMetadataRecord username s3Location file preRead now
    match marshalRes with
    | .error e => (.error (.wrap "failed to marshal file metadata".data e), none)
    | .ok () =>
      match putRes with
      | .error e => (.error (.wrap "failed to store file metadata".data e), some metadata)
      | .ok () => (.ok (), some metadata)

/-- C2: the upsert reads any existing record first; when one is found the new
record carries the existing created timestamp forward unchanged, and
last-modified is always set to the current time.  Hence created is at most
last-modified whenever every earlier write used an earlier clock reading, and
two sequential upserts for one identity leave created at the first call's
value while last-modified does not decrease. -/
theorem storeFileMetadata_created_invariant :
    (∀ username loc file existing now,
        (storeFileMetadataRecord username loc file (.ok (some existing)) now).createdAt
          = existing.createdAt)
    ∧ (∀ username loc file preRead now,
        (storeFileMetadataRecord username loc file preRead now).lastModifiedTime = now)
    ∧ (∀ username loc file preRead now,
        (∀ existing, preRead = .ok (some existing) → existing.createdAt ≤ now) →
          (storeFileMetadataRecord username loc file preRead now).createdAt
            ≤ (storeFileMetadataRecord username loc file preRead now).lastModifiedTime)
    ∧ (∀ username loc1 loc2 file now1 now2, now1 ≤ now2 →
        (storeFileMetadataRecord username loc2 file
            (.ok (some (storeFileMetadataRecord username loc1 file (.ok none) now1)))
            now2).createdAt = now1
        ∧ (storeFileMetadataRecord username loc2 file
            (.ok (some (storeFileMetadataRecord username loc1 file (.ok none) now1)))
            now2).lastModifiedTime = now2
        ∧ (storeFileMetadataRecord username loc1 file (.ok none) now1).lastModifiedTime
            ≤ (storeFileMetadataRecord username loc2 file
                (.ok (some (storeFileMetadataRecord username loc1 file (.ok none) now1)))
                now2).lastModifiedTime) := by
  refine ⟨fun _ _ _ _ _ => rfl, ?_, ?_, ?_⟩
  · intro username loc file preRead now
    match preRead with
    | .ok (some existing) => rfl
    | .ok none => rfl
    | .error _ => rfl
  · intro username loc file preRead now h
    match preRead with
    | .ok (some existing) => exact h existing rfl
    | .ok none => exact le_refl _
    | .error _ => exact le_refl _
  · intro username loc1 loc2 file now1 now2 h
    exact ⟨rfl, rfl, h⟩

/-- C2 witness: two upserts at clock readings 10 and 25 keep created at 10
while last-modified rises to 25. -/
theorem storeFileMetadata_created_invariant_witness :
    (storeFileMetadataRecord "u".data "k1".data
        ⟨"gba".data, "/roms/gba/a.sav".data, "a.sav".data, 10, .save⟩
        (.ok (some (storeFileMetadataRecord "u".data "k0".data
          ⟨"gba".data, "/roms/gba/a.sav".data, "a.sav".data, 10, .save⟩ (.ok none) 10)))
        25).createdAt = 10 := by
  have h := storeFileMetadata_created_invariant.2.2.2 "u".data "k0".data "k1".data
    ⟨"gba".data, "/roms/gba/a.sav".data, "a.sav".data, 10, .save⟩ 10 25 (by decide)
  exact h.1

/-- C10: when the pre-read of the existing record errors rather than misses,
the upsert still proceeds: the record is written with created (and
last-modified) set to the current time, so a read failure silently resets
created instead of aborting or preserving it. -/
theorem storeFileMetadata_preread_error_resets_created
    (username loc : Str) (file : File) (e : Nat) (now : Int)
    (putRes : Except Nat Unit) :
    (storeFileMetadataRecord username loc file (.error e) now).createdAt = now
    ∧ (storeFileMetadataRecord username loc file (.error e) now).lastModifiedTime = now
    ∧ (storeFileMetadata true username loc file (.error e) now (.ok ()) putRes).2
        = some (storeFileMetadataRecord username loc file (.error e) now) := by
  refine ⟨rfl, rfl, ?_⟩
  unfold storeFileMetadata
  match putRes with
  | .ok () => rfl
  | .error _ => rfl

/-- C10 witness: a concrete upsert whose pre-read fails with code 3 still
hands PutItem a record created at the current clock reading 42. -/
theorem storeFileMetadata_preread_error_resets_created_witness :
    (storeFileMetadataRecord "u".data "k".data
        ⟨"gba".data, "/roms/gba/a.sav".data, "a.sav".data, 10, .save⟩ (.error 3) 42).createdAt
      = 42 :=
  (storeFileMetadata_preread_error_resets_created "u".data "k".data
    ⟨"gba".data, "/roms/gba/a.sav".data, "a.sav".data, 10, .save⟩ 3 42 (.ok ())).1

/-! ## Reconciliation engine (tools/syncer/pkg/syncer/syncer.go) -/

/-- The three actions the spec's per-file state machine names.  The code's
`syncFile` only ever takes the first two. -/
inductive SyncAction
  | upload
  | download
  | skip
deriving DecidableEq, Repr

/-- The decision in `syncFile`: upload when S3 reports no timestamp or the
local file's last-modified is strictly after S3's; download otherwise. -/
def syncFileDecide (localLastModified : Int) (s3LastModified : Option Int) : SyncAction :=
  match s3LastModified with
  | none => .upload
  | some remote => if localLastModified > remote then .upload else .download

/-- Wrapper of syncFile around the decision: a failed `GetFileLastModified` lookup
propagates its error; a successful lookup feeds the decision. -/
def syncFileStep (lookup : Except StorageErr (Option Int)) (localLastModified : Int) :
    Except StorageErr SyncAction :=
  match lookup with
  | .error e => .error e
  | .ok s3LastModified => .ok (syncFileDecide localLastModified s3LastModified)

/-- C1: syncFile uploads exactly when the remote lookup yields no timestamp or
the local time is strictly later, downloads in every other case (remote
timestamp present and at least the local time, equality included), and has no
skip branch; lookup errors are propagated unchanged. -/
theorem syncFile_decision (localLastModified : Int) (s3LastModified : Option Int) :
    (syncFileDecide localLastModified s3LastModified = .upload
      ↔ s3LastModified = none
        ∨ ∃ remote, s3LastModified = some remote ∧ remote < localLastModified)
    ∧ (syncFileDecide localLastModified s3LastModified = .download
      ↔ ∃ remote, s3LastModified = some remote ∧ localLastModified ≤ remote)
    ∧ syncFileDecide localLastModified s3LastModified ≠ .skip
    ∧ syncFileDecide localLastModified (some localLastModified) = .download
    ∧ (∀ e, syncFileStep (.error e) localLastModified = .error e)
    ∧ (∀ t, syncFileStep (.ok t) localLastModified
        = .ok (syncFileDecide localLastModified t)) := by
  refine ⟨?_, ?_, ?_, ?_, fun _ => rfl, fun _ => rfl⟩
  · match s3LastModified with
    | none => simp [syncFileDecide]
    | some remote =>
      by_cases h : localLastModified > remote <;> simp [syncFileDecide, h] <;> omega
  · match s3LastModified with
    | none => simp [syncFileDecide]
    | some remote =>
      by_cases h : localLastModified > remote <;> simp [syncFileDecide, h] <;> omega
  · match s3LastModified with
    | none => simp [syncFileDecide]
    | some remote =>
      by_cases h : localLastModified > remote <;> simp [syncFileDecide, h]
  · simp [syncFileDecide]

/-! ## pkg/storage s3 backend (src/unnamed/part_007, DynamoDB-aware variant)

External calls are recorded as effects; each call's outcome arrives as an
oracle argument. -/

/-- One external call performed by the s3 backend. -/
inductive Effect
  | headBucket
  | createBucket
  | initIndex
  | openLocalFile
  | upload (key : Str)
  | putMetadata
  | getMetadata
  | headObject (key : Str)
  | getObject (key : Str)
  | writeLocal
deriving DecidableEq, Repr

/-- S3Config (DynamoDB sub-config reduced to whether the index client is
attached, which `NewS3Storage` decides from `cfg.DynamoDB.Enabled`). -/
structure S3Config where
  bucket : Str
  enabled : Bool
  createMissingResources : Bool
deriving DecidableEq, Repr

/-- The `s3` struct: configuration, owner name, and whether a DynamoDB
metadata-index client is attached. -/
structure s3 where
  cfg : S3Config
  username : Str
  hasDynamoClient : Bool
deriving DecidableEq, Repr

/-- RetrieveFileRequest; the two file pointers may be nil. -/
structure RetrieveFileRequest where
  toRetrieve : Option File
  destination : Option File
deriving DecidableEq, Repr

/-- Outcome of the HeadBucket call. -/
inductive HeadBucketRes
  | found
  | notFound
  | errRes (code : Nat)
deriving DecidableEq, Repr

/-- Outcome of the HeadObject call: object present (with its optional
last-modified time), absent, or some other failure. -/
inductive HeadObjectRes
  | found (lastModified : Option Int)
  | notFound
  | errRes (code : Nat)
deriving DecidableEq, Repr

/-- checkIfResourcesExist: HeadBucket success means the bucket exists, a
not-found error means it does not (no error), any other error propagates. -/
def checkIfResourcesExist (headBucketRes : HeadBucketRes) : Except Nat Bool :=
  match headBucketRes with
  | .found => .ok true
  | .notFound => .ok false
  | .errRes e => .error e

/-- Init: check the bucket (always — the enabled flag is never consulted
here), create it when missing and permitted, then initialize the DynamoDB
index when attached. -/
def s3Init (s : s3) (headBucketRes : HeadBucketRes)
    (createBucketRes : Except Nat Unit) (dynamoInitRes : Except Nat Unit) :
    Except StorageErr Unit × List Effect :=
  match checkIfResourcesExist headBucketRes with
  | .error e => (.error (.raw e), [.headBucket])
  | .ok exist =>
    if !exist && s.cfg.createMissingResources then
      match createBucketRes with
      | .error e => (.error (.raw e), [.headBucket, .createBucket])
      | .ok () =>
        if s.hasDynamoClient then
          match dynamoInitRes with
          | .error e =>
            (.error (.wrap "failed to initialize DynamoDB".data e),
              [.headBucket, .createBucket, .initIndex])
          | .ok () => (.ok (), [.headBucket, .createBucket, .initIndex])
        else (.ok (), [.headBucket, .createBucket])
    else
      if s.hasDynamoClient then
        match dynamoInitRes with
        | .error e =>
          (.error (.wrap "failed to initialize DynamoDB".data e), [.headBucket, .initIndex])
        | .ok () => (.ok (), [.headBucket, .initIndex])
      else (.ok (), [.headBucket])

/-- constructKey (fallback key construction in Retrieve): split the
requested logical directory on the path separator; with at least two
segments the last segment is the file's directory and the joined remainder
the remote time-bucket directory; with fewer, the owner-qualified direct
key. -/
def constructKey (s : s3) (toRetrieve : File) : Str :=
  let dirParts := goSplit '/' toRetrieve.dir
  if dirParts.length < 2 then
    s.username ++ "/".data ++ toRetrieve.dir ++ "/".data ++ toRetrieve.name
  else
    let fileDir := dirParts.getLastD []
    let remoteDir := goJoin "/".data dirParts.dropLast
    remoteDir ++ "/".data ++ s.username ++ "/".data ++ fileDir ++ "/".data ++ toRetrieve.name

/-- Lines 146–204 of `Retrieve` once the key is chosen: GetObject (error
returned unwrapped), open the destination (error returned unwrapped), copy
the body (error wrapped).  The success value — a `File` built from the
destination path with its name overridden to the requested name — is not
modelled; no claim refers to it. -/
def retrieveFetch (key : Str) (getObjectRes : Str → Except Nat Unit)
    (openDestRes copyRes : Except Nat Unit) : Except StorageErr Unit × List Effect :=
  match getObjectRes key with
  | .error e => (.error (.raw e), [.getObject key])
  | .ok () =>
    match openDestRes with
    | .error e => (.error (.raw e), [.getObject key, .openLocalFile])
    | .ok () =>
      match copyRes with
      | .error e =>
        (.error (.wrap "failed to write to temp file".data e),
          [.getObject key, .openLocalFile, .writeLocal])
      | .ok () => (.ok (), [.getObject key, .openLocalFile, .writeLocal])

/-- Retrieve: disabled backends and nil request files signal
NotImplemented; with an attached index the recorded location is preferred
(lookup errors propagate wrapped, a miss or empty location falls back to
`constructKey`); without an index the key is always constructed. -/
def retrieve (s : s3) (request : RetrieveFileRequest)
    (metaLookup : Except Nat (Option FileMetadata))
    (getObjectRes : Str → Except Nat Unit)
    (openDestRes copyRes : Except Nat Unit) : Except StorageErr Unit × List Effect :=
  if !s.cfg.enabled then (.error .notImplemented, [])
  else
    match request.toRetrieve, request.destination with
    | none, _ => (.error .notImplemented, [])
    | some _, none => (.error .notImplemented, [])
    | some toRetrieve, some _ =>
      if s.hasDynamoClient then
        match metaLookup with
        | .error e =>
          (.error (.wrap "failed to get file metadata from DynamoDB".data e), [.getMetadata])
        | .ok found =>
          match found with
          | some metadata =>
            if metadata.s3Location ≠ [] then
              let r := retrieveFetch metadata.s3Location getObjectRes openDestRes copyRes
              (r.1, .getMetadata :: r.2)
            else
              let r := retrieveFetch (constructKey s toRetrieve) getObjectRes openDestRes copyRes
              (r.1, .getMetadata :: r.2)
          | none =>
            let r := retrieveFetch (constructKey s toRetrieve) getObjectRes openDestRes copyRes
            (r.1, .getMetadata :: r.2)
      else
        retrieveFetch (constructKey s toRetrieve) getObjectRes openDestRes copyRes

/-- The object key `Store` uploads to: the remote directory loses one
trailing slash, gains the owner as its final segment (the source's owner
path-segment injection), and prefixes the file's directory and name. -/
def storeKey (username : Str) (remoteDir : Str) (file : File) : Str :=
  let remoteDir1 := cutSuffixSlash remoteDir
  let remoteDir2 := remoteDir1 ++ "/".data ++ username
  let key := file.dir ++ "/".data ++ file.name
  if remoteDir2 ≠ [] then remoteDir2 ++ "/".data ++ key else key

/-- Store: a disabled backend returns success untouched; otherwise the
local file is opened (failure wrapped), uploaded under `storeKey` (failure
wrapped), and then — when the index is attached — the metadata upsert runs,
its failure logged and deliberately not propagated. -/
def store (s : s3) (remoteDir : Str) (file : File)
    (openRes : Except Nat Unit) (uploadRes : Str → Except Nat Unit)
    (metaWriteRes : Except Nat Unit) : Except StorageErr Unit × List Effect :=
  if !s.cfg.enabled then (.ok (), [])
  else
    match openRes with
    | .error e => (.error (.wrap "failed to open file".data e), [.openLocalFile])
    | .ok () =>
      let key := storeKey s.username remoteDir file
      match uploadRes key with
      | .error e => (.error (.wrap "failed to upload".data e), [.openLocalFile, .upload key])
      | .ok () =>
        if s.hasDynamoClient then
          match metaWriteRes with
          | .error _ => (.ok (), [.openLocalFile, .upload key, .putMetadata])
          | .ok () => (.ok (), [.openLocalFile, .upload key, .putMetadata])
        else (.ok (), [.openLocalFile, .upload key])

/-- StoreAll: Store per file in order, aborting on the first failure. -/
def storeAll (s : s3) (remoteDir : Str) (files : List File)
    (openRes : File → Except Nat Unit) (uploadRes : File → Str → Except Nat Unit)
    (metaWriteRes : File → Except Nat Unit) : Except StorageErr Unit × List Effect :=
  match files with
  | [] => (.ok (), [])
  | f :: rest =>
    let r := store s remoteDir f (openRes f) (uploadRes f) (metaWriteRes f)
    match r.1 with
    | .error e => (.error e, r.2)
    | .ok () =>
      let rs := storeAll s remoteDir rest openRes uploadRes metaWriteRes
      (rs.1, r.2 ++ rs.2)

/-- The HeadObject probe at the end of `GetFileLastModified`: a not-found
error is a successful `none`, other errors are wrapped, and a reply without
a last-modified time is also a successful `none`. -/
def headProbe (key : Str) (headObjectRes : Str → HeadObjectRes) :
    Except StorageErr (Option Int) × List Effect :=
  match headObjectRes key with
  | .notFound => (.ok none, [.headObject key])
  | .errRes e =>
    (.error (.wrap "failed to get file metadata from S3".data e), [.headObject key])
  | .found none => (.ok none, [.headObject key])
  | .found (some t) => (.ok (some t), [.headObject key])

/-- GetFileLastModified: disabled backends signal NotImplemented; the key
is built by the same three steps `Store` uses (duplicated here as in the
source); a successful index lookup whose record carries a positive
last-modified time answers directly, every other index outcome falls
through to the HeadObject probe. -/
def getFileLastModified (s : s3) (remoteDir : Str) (file : File)
    (metaLookup : Except Nat (Option FileMetadata))
    (headObjectRes : Str → HeadObjectRes) : Except StorageErr (Option Int) × List Effect :=
  if !s.cfg.enabled then (.error .notImplemented, [])
  else
    let remoteDir1 := cutSuffixSlash remoteDir
    let remoteDir2 := remoteDir1 ++ "/".data ++ s.username
    let key0 := file.dir ++ "/".data ++ file.name
    let key := if remoteDir2 ≠ [] then remoteDir2 ++ "/".data ++ key0 else key0
    if s.hasDynamoClient then
      match metaLookup with
      | .ok (some metadata) =>
        if metadata.lastModifiedTime > 0 then
          (.ok (some metadata.lastModifiedTime), [.getMetadata])
        else
          let r := headProbe key headObjectRes
          (r.1, .getMetadata :: r.2)
      | .ok none =>
        let r := headProbe key headObjectRes
        (r.1, .getMetadata :: r.2)
      | .error _ =>
        let r := headProbe key headObjectRes
        (r.1, .getMetadata :: r.2)
    else
      headProbe key headObjectRes

theorem retrieveFetch_getObject_mem (key : Str) (getObjectRes : Str → Except Nat Unit)
    (openDestRes copyRes : Except Nat Unit) :
    Effect.getObject key ∈ (retrieveFetch key getObjectRes openDestRes copyRes).2 := by
  unfold retrieveFetch
  rcases getObjectRes key with e | ⟨⟩
  · simp
  · rcases openDestRes with e | ⟨⟩
    · simp
    · rcases copyRes with e | ⟨⟩ <;> simp

/-- C4: when retrieve falls back to heuristic key construction (no metadata
index, lookup miss, or empty recorded location) the key it fetches is
`constructKey`; with at least two segments in the requested logical
directory the last segment is the true directory and the joined remainder
the bucket, giving bucket, owner, true directory, name; with fewer segments
it gives owner, directory, name; and directory 2024/01/17/12/gba with name
x.sav and owner u resolves to key 2024/01/17/12/u/gba/x.sav. -/
theorem constructKey_fallback :
    (∀ (s : s3) (toRetrieve : File), 2 ≤ (goSplit '/' toRetrieve.dir).length →
        constructKey s toRetrieve
          = goJoin "/".data (goSplit '/' toRetrieve.dir).dropLast
              ++ "/".data ++ s.username ++ "/".data
              ++ (goSplit '/' toRetrieve.dir).getLastD [] ++ "/".data ++ toRetrieve.name)
    ∧ (∀ (s : s3) (toRetrieve : File), (goSplit '/' toRetrieve.dir).length < 2 →
        constructKey s toRetrieve
          = s.username ++ "/".data ++ toRetrieve.dir ++ "/".data ++ toRetrieve.name)
    ∧ (∀ (s : s3) (toRetrieve destination : File)
        (metaLookup : Except Nat (Option FileMetadata))
        (getObjectRes : Str → Except Nat Unit) (openDestRes copyRes : Except Nat Unit),
        s.cfg.enabled = true →
        (s.hasDynamoClient = false ∨ metaLookup = .ok none
          ∨ ∃ m, metaLookup = .ok (some m) ∧ m.s3Location = []) →
        Effect.getObject (constructKey s toRetrieve)
          ∈ (retrieve s ⟨some toRetrieve, some destination⟩ metaLookup getObjectRes
              openDestRes copyRes).2)
    ∧ constructKey ⟨⟨"bkt".data, true, false⟩, "u".data, false⟩
        ⟨"2024/01/17/12/gba".data, "/tmp/x.sav".data, "x.sav".data, 0, .save⟩
      = "2024/01/17/12/u/gba/x.sav".data := by
  refine ⟨?_, ?_, ?_, by decide⟩
  · intro s toRetrieve h
    unfold constructKey
    dsimp only
    rw [if_neg (by omega)]
  · intro s toRetrieve h
    unfold constructKey
    dsimp only
    rw [if_pos h]
  · intro s toRetrieve destination metaLookup getObjectRes openDestRes copyRes hen hcase
    rcases hcase with hnc | hml | ⟨m, hml, hloc⟩
    · simp only [retrieve, hen, hnc, Bool.not_true, Bool.false_eq_true, if_false, if_neg]
      exact retrieveFetch_getObject_mem _ _ _ _
    · subst hml
      by_cases hdc : s.hasDynamoClient
      · simp only [retrieve, hen, hdc, Bool.not_true, Bool.false_eq_true, if_false, if_true]
        exact List.mem_cons_of_mem _ (retrieveFetch_getObject_mem _ _ _ _)
      · simp only [retrieve, hen, hdc, Bool.not_true, Bool.false_eq_true, if_false, if_neg]
        exact retrieveFetch_getObject_mem _ _ _ _
    · subst hml
      by_cases hdc : s.hasDynamoClient
      · simp only [retrieve, hen, hdc, hloc, Bool.not_true, Bool.false_eq_true, if_false,
          if_true, ne_eq, not_true_eq_false]
        exact List.mem_cons_of_mem _ (retrieveFetch_getObject_mem _ _ _ _)
      · simp only [retrieve, hen, hdc, Bool.not_true, Bool.false_eq_true, if_false, if_neg]
        exact retrieveFetch_getObject_mem _ _ _ _

/-- C4 witness: the second fallback shape at a one-segment directory. -/
theorem constructKey_fallback_witness :
    (goSplit '/' ("gba".data : Str)).length < 2 ∧
      constructKey ⟨⟨"bkt".data, true, false⟩, "u".data, false⟩
          ⟨"gba".data, "/tmp/x.sav".data, "x.sav".data, 0, .save⟩
        = "u".data ++ "/".data ++ "gba".data ++ "/".data ++ "x.sav".data :=
  ⟨by decide, constructKey_fallback.2.1 ⟨⟨"bkt".data, true, false⟩, "u".data, false⟩
    ⟨"gba".data, "/tmp/x.sav".data, "x.sav".data, 0, .save⟩ (by decide)⟩

theorem headProbe_headObject_mem (key : Str) (headObjectRes : Str → HeadObjectRes) :
    Effect.headObject key ∈ (headProbe key headObjectRes).2 := by
  unfold headProbe
  rcases headObjectRes key with ⟨_ | t⟩ | e <;> simp

/-- C5 counterexample: an attached index whose lookup succeeds with a record
carrying the non-zero last-modified time minus one does not yield that
recorded timestamp — the code requires a positive value and falls through to
the HeadObject probe, here answering 42. -/
theorem getFileLastModified_nonzero_counterexample :
    ((-1 : Int) ≠ 0)
    ∧ (getFileLastModified ⟨⟨"b".data, true, false⟩, "u".data, true⟩ "2024/01/17/12".data
        ⟨"gba".data, "/roms/gba/x.sav".data, "x.sav".data, 5, .save⟩
        (.ok (some ⟨"id".data, "loc".data, "x.sav".data, "gba".data, "u".data, "save".data,
          -1, -1⟩))
        (fun _ => .found (some 42))).1 = .ok (some 42)
    ∧ (getFileLastModified ⟨⟨"b".data, true, false⟩, "u".data, true⟩ "2024/01/17/12".data
        ⟨"gba".data, "/roms/gba/x.sav".data, "x.sav".data, 5, .save⟩
        (.ok (some ⟨"id".data, "loc".data, "x.sav".data, "gba".data, "u".data, "save".data,
          -1, -1⟩))
        (fun _ => .found (some 42))).1 ≠ .ok (some (-1)) := by
  refine ⟨by decide, rfl, ?_⟩
  intro h
  rw [show (getFileLastModified ⟨⟨"b".data, true, false⟩, "u".data, true⟩ "2024/01/17/12".data
        ⟨"gba".data, "/roms/gba/x.sav".data, "x.sav".data, 5, .save⟩
        (.ok (some ⟨"id".data, "loc".data, "x.sav".data, "gba".data, "u".data, "save".data,
          -1, -1⟩))
        (fun _ => .found (some 42))).1 = Except.ok (some 42) from rfl] at h
  simp at h

/-- C5 (amended): getLastModified returns the metadata index's recorded
timestamp whenever an index is attached, its lookup succeeds, and the
record's last-modified is positive; in every other index outcome (no index,
lookup error, miss, or a non-positive recorded time) it probes the object
store with the same key construction as store, and a not-found probe yields
a successful none, never an error. -/
theorem getFileLastModified_spec :
    (∀ (s : s3) (remoteDir : Str) (file : File) (metadata : FileMetadata)
        (headObjectRes : Str → HeadObjectRes),
        s.cfg.enabled = true → s.hasDynamoClient = true → 0 < metadata.lastModifiedTime →
        getFileLastModified s remoteDir file (.ok (some metadata)) headObjectRes
          = (.ok (some metadata.lastModifiedTime), [.getMetadata]))
    ∧ (∀ (s : s3) (remoteDir : Str) (file : File)
        (metaLookup : Except Nat (Option FileMetadata))
        (headObjectRes : Str → HeadObjectRes),
        s.cfg.enabled = true →
        (s.hasDynamoClient = false ∨ metaLookup = .ok none ∨ (∃ e, metaLookup = .error e)
          ∨ ∃ m, metaLookup = .ok (some m) ∧ m.lastModifiedTime ≤ 0) →
        Effect.headObject (storeKey s.username remoteDir file)
            ∈ (getFileLastModified s remoteDir file metaLookup headObjectRes).2
          ∧ (getFileLastModified s remoteDir file metaLookup headObjectRes).1
              = (headProbe (storeKey s.username remoteDir file) headObjectRes).1)
    ∧ (∀ (s : s3) (remoteDir : Str) (file : File)
        (metaLookup : Except Nat (Option FileMetadata))
        (headObjectRes : Str → HeadObjectRes),
        s.cfg.enabled = true →
        headObjectRes (storeKey s.username remoteDir file) = .notFound →
        (s.hasDynamoClient = false ∨ metaLookup = .ok none ∨ (∃ e, metaLookup = .error e)
          ∨ ∃ m, metaLookup = .ok (some m) ∧ m.lastModifiedTime ≤ 0) →
        (getFileLastModified s remoteDir file metaLookup headObjectRes).1 = .ok none) := by
  have hfall : ∀ (s : s3) (remoteDir : Str) (file : File)
      (metaLookup : Except Nat (Option FileMetadata))
      (headObjectRes : Str → HeadObjectRes),
      s.cfg.enabled = true →
      (s.hasDynamoClient = false ∨ metaLookup = .ok none ∨ (∃ e, metaLookup = .error e)
        ∨ ∃ m, metaLookup = .ok (some m) ∧ m.lastModifiedTime ≤ 0) →
      Effect.headObject (storeKey s.username remoteDir file)
          ∈ (getFileLastModified s remoteDir file metaLookup headObjectRes).2
        ∧ (getFileLastModified s remoteDir file metaLookup headObjectRes).1
            = (headProbe (storeKey s.username remoteDir file) headObjectRes).1 := by
    intro s remoteDir file metaLookup headObjectRes hen hcase
    rcases hcase with hnc | hml | ⟨e, hml⟩ | ⟨m, hml, hle⟩
    · simp only [getFileLastModified, hen, hnc, Bool.not_true, Bool.false_eq_true,
        if_false, if_neg]
      exact ⟨headProbe_headObject_mem _ _, rfl⟩
    · subst hml
      by_cases hdc : s.hasDynamoClient
      · simp only [getFileLastModified, hen, hdc, Bool.not_true, Bool.false_eq_true,
          if_false, if_true]
        exact ⟨List.mem_cons_of_mem _ (headProbe_headObject_mem _ _), rfl⟩
      · simp only [getFileLastModified, hen, hdc, Bool.not_true, Bool.false_eq_true,
          if_false, if_neg]
        exact ⟨headProbe_headObject_mem _ _, rfl⟩
    · subst hml
      by_cases hdc : s.hasDynamoClient
      · simp only [getFileLastModified, hen, hdc, Bool.not_true, Bool.false_eq_true,
          if_false, if_true]
        exact ⟨List.mem_cons_of_mem _ (headProbe_headObject_mem _ _), rfl⟩
      · simp only [getFileLastModified, hen, hdc, Bool.not_true, Bool.false_eq_true,
          if_false, if_neg]
        exact ⟨headProbe_headObject_mem _ _, rfl⟩
    · subst hml
      by_cases hdc : s.hasDynamoClient
      · have hnp : ¬ m.lastModifiedTime > 0 := by omega
        simp only [getFileLastModified, hen, hdc, hnp, Bool.not_true, Bool.false_eq_true,
          if_false, if_true]
        exact ⟨List.mem_cons_of_mem _ (headProbe_headObject_mem _ _), rfl⟩
      · simp only [getFileLastModified, hen, hdc, Bool.not_true, Bool.false_eq_true,
          if_false, if_neg]
        exact ⟨headProbe_headObject_mem _ _, rfl⟩
  refine ⟨?_, hfall, ?_⟩
  · intro s remoteDir file metadata headObjectRes hen hdc hpos
    simp only [getFileLastModified, hen, hdc, hpos, Bool.not_true, Bool.false_eq_true,
      if_false, if_true]
  · intro s remoteDir file metaLookup headObjectRes hen hnf hcase
    have h := (hfall s remoteDir file metaLookup headObjectRes hen hcase).2
    rw [h]
    unfold headProbe
    rw [hnf]

/-- C5 witness: a record with positive recorded time 7 is answered from the
index; a lookup miss with a not-found probe yields a successful none. -/
theorem getFileLastModified_spec_witness :
    getFileLastModified ⟨⟨"b".data, true, false⟩, "u".data, true⟩ "2024/01/17/12".data
        ⟨"gba".data, "/roms/gba/x.sav".data, "x.sav".data, 5, .save⟩
        (.ok (some ⟨"id".data, "loc".data, "x.sav".data, "gba".data, "u".data, "save".data,
          7, 7⟩))
        (fun _ => .notFound)
      = (.ok (some 7), [.getMetadata])
    ∧ (getFileLastModified ⟨⟨"b".data, true, false⟩, "u".data, true⟩ "2024/01/17/12".data
        ⟨"gba".data, "/roms/gba/x.sav".data, "x.sav".data, 5, .save⟩
        (.ok none) (fun _ => .notFound)).1 = .ok none :=
  ⟨getFileLastModified_spec.1 ⟨⟨"b".data, true, false⟩, "u".data, true⟩ "2024/01/17/12".data
      ⟨"gba".data, "/roms/gba/x.sav".data, "x.sav".data, 5, .save⟩
      ⟨"id".data, "loc".data, "x.sav".data, "gba".data, "u".data, "save".data, 7, 7⟩
      (fun _ => .notFound) rfl rfl (by decide),
    getFileLastModified_spec.2.2 ⟨⟨"b".data, true, false⟩, "u".data, true⟩ "2024/01/17/12".data
      ⟨"gba".data, "/roms/gba/x.sav".data, "x.sav".data, 5, .save⟩
      (.ok none) (fun _ => .notFound) rfl rfl (Or.inr (Or.inl rfl))⟩

/-- C6: once the object-store upload has succeeded, a failing metadata upsert
never fails the overall store — the result is success for every metadata
outcome — and this is the sole swallowed failure class: the store result is
success exactly when opening and uploading succeed, while open and upload
failures propagate wrapped. -/
theorem store_swallows_metadata_failure (s : s3) (remoteDir : Str) (file : File)
    (openRes : Except Nat Unit) (uploadRes : Str → Except Nat Unit)
    (metaWriteRes : Except Nat Unit)
    (henabled : s.cfg.enabled = true) :
    (openRes = .ok () → uploadRes (storeKey s.username remoteDir file) = .ok () →
        ∀ e, (store s remoteDir file openRes uploadRes (.error e)).1 = .ok ())
    ∧ ((store s remoteDir file openRes uploadRes metaWriteRes).1 = .ok ()
        ↔ openRes = .ok () ∧ uploadRes (storeKey s.username remoteDir file) = .ok ())
    ∧ (∀ e, openRes = .error e →
        (store s remoteDir file openRes uploadRes metaWriteRes).1
          = .error (.wrap "failed to open file".data e))
    ∧ (∀ e, openRes = .ok () → uploadRes (storeKey s.username remoteDir file) = .error e →
        (store s remoteDir file openRes uploadRes metaWriteRes).1
          = .error (.wrap "failed to upload".data e)) := by
  refine ⟨?_, ?_, ?_, ?_⟩
  · intro ho hu e
    simp only [store, henabled, Bool.not_true, Bool.false_eq_true, if_false, ho, hu]
    by_cases hdc : s.hasDynamoClient <;> simp [hdc]
  · constructor
    · intro h
      rcases ho : openRes with eo | u
      · simp only [store, henabled, Bool.not_true, Bool.false_eq_true, if_false, ho] at h
        exact Except.noConfusion h
      · cases u
        rcases hu : uploadRes (storeKey s.username remoteDir file) with eu | v
        · simp only [store, henabled, Bool.not_true, Bool.false_eq_true, if_false,
            ho, hu] at h
          exact Except.noConfusion h
        · cases v
          exact ⟨rfl, rfl⟩
    · rintro ⟨ho, hu⟩
      simp only [store, henabled, Bool.not_true, Bool.false_eq_true, if_false, ho, hu]
      by_cases hdc : s.hasDynamoClient
      · rcases metaWriteRes with e | ⟨⟩ <;> simp [hdc]
      · simp [hdc]
  · intro e ho
    simp [store, henabled, ho]
  · intro e ho hu
    simp [store, henabled, ho, hu]

/-- C6 witness: with open and upload succeeding, a metadata upsert failing
with code 9 still leaves the store result success. -/
theorem store_swallows_metadata_failure_witness :
    (store ⟨⟨"b".data, true, false⟩, "u".data, true⟩ "2024/01/17/12".data
        ⟨"gba".data, "/roms/gba/x.sav".data, "x.sav".data, 5, .save⟩
        (.ok ()) (fun _ => .ok ()) (.error 9)).1 = .ok () :=
  (store_swallows_metadata_failure ⟨⟨"b".data, true, false⟩, "u".data, true⟩
      "2024/01/17/12".data ⟨"gba".data, "/roms/gba/x.sav".data, "x.sav".data, 5, .save⟩
      (.ok ()) (fun _ => .ok ()) (.error 9) rfl).1 rfl rfl 9

/-- C7 counterexample: a disabled backend's Init is not a no-op returning
success — the bucket existence probe still runs, and when it fails with
code 7 Init returns that error. -/
theorem s3Init_disabled_not_noop :
    ((⟨⟨"b".data, false, false⟩, "u".data, false⟩ : s3).cfg.enabled = false)
    ∧ (s3Init ⟨⟨"b".data, false, false⟩, "u".data, false⟩ (.errRes 7) (.ok ()) (.ok ())).1
        = .error (.raw 7)
    ∧ (s3Init ⟨⟨"b".data, false, false⟩, "u".data, false⟩ (.errRes 7) (.ok ()) (.ok ())).2
        = [.headBucket] :=
  ⟨rfl, rfl, rfl⟩

theorem storeAll_disabled (s : s3) (hdis : s.cfg.enabled = false) (remoteDir : Str) :
    ∀ (files : List File) (openRes : File → Except Nat Unit)
      (uploadRes : File → Str → Except Nat Unit) (metaWriteRes : File → Except Nat Unit),
      storeAll s remoteDir files openRes uploadRes metaWriteRes = (.ok (), []) := by
  intro files
  induction files with
  | nil => intro openRes uploadRes metaWriteRes; rfl
  | cons f rest ih =>
    intro openRes uploadRes metaWriteRes
    unfold storeAll
    have hs : store s remoteDir f (openRes f) (uploadRes f) (metaWriteRes f) = (.ok (), []) := by
      unfold store
      rw [hdis]
      rfl
    rw [hs, ih openRes uploadRes metaWriteRes]
    rfl

/-- C7 (amended): when the backend is disabled, store and storeAll return
success with no external call, retrieve and getLastModified return
NotImplemented with no external call; Init, however, ignores the enabled
flag entirely — it behaves exactly as for an enabled backend and always
performs the bucket existence probe. -/
theorem s3_disabled_contract (s : s3) (hdis : s.cfg.enabled = false)
    (remoteDir : Str) (file : File) (files : List File)
    (request : RetrieveFileRequest)
    (openRes : Except Nat Unit) (uploadRes : Str → Except Nat Unit)
    (metaWriteRes : Except Nat Unit)
    (openAll : File → Except Nat Unit) (uploadAll : File → Str → Except Nat Unit)
    (metaAll : File → Except Nat Unit)
    (metaLookup : Except Nat (Option FileMetadata))
    (getObjectRes : Str → Except Nat Unit) (openDestRes copyRes : Except Nat Unit)
    (headObjectRes : Str → HeadObjectRes)
    (headBucketRes : HeadBucketRes) (createBucketRes dynamoInitRes : Except Nat Unit) :
    store s remoteDir file openRes uploadRes metaWriteRes = (.ok (), [])
    ∧ storeAll s remoteDir files openAll uploadAll metaAll = (.ok (), [])
    ∧ retrieve s request metaLookup getObjectRes openDestRes copyRes
        = (.error .notImplemented, [])
    ∧ getFileLastModified s remoteDir file metaLookup headObjectRes
        = (.error .notImplemented, [])
    ∧ s3Init s headBucketRes createBucketRes dynamoInitRes
        = s3Init ⟨⟨s.cfg.bucket, true, s.cfg.createMissingResources⟩, s.username,
            s.hasDynamoClient⟩ headBucketRes createBucketRes dynamoInitRes
    ∧ Effect.headBucket ∈ (s3Init s headBucketRes createBucketRes dynamoInitRes).2 := by
  refine ⟨?_, storeAll_disabled s hdis remoteDir files openAll uploadAll metaAll,
    ?_, ?_, rfl, ?_⟩
  · unfold store
    rw [hdis]
    rfl
  · unfold retrieve
    rw [hdis]
    rfl
  · unfold getFileLastModified
    rw [hdis]
    rfl
  · unfold s3Init
    rcases headBucketRes with _ | _ | e
    · dsimp [checkIfResourcesExist]
      by_cases hc : s.cfg.createMissingResources <;>
        by_cases hdc : s.hasDynamoClient <;>
          simp only [hc, hdc, Bool.not_true, Bool.and_false, Bool.and_true,
            Bool.false_and, Bool.true_and, if_false, if_true] <;>
        rcases dynamoInitRes with e | ⟨⟩ <;> simp
    · dsimp [checkIfResourcesExist]
      by_cases hc : s.cfg.createMissingResources <;>
        by_cases hdc : s.hasDynamoClient <;>
          simp only [hc, hdc] <;>
          rcases createBucketRes with e | ⟨⟩ <;>
          rcases dynamoInitRes with e | ⟨⟩ <;> simp
    · simp [checkIfResourcesExist]

/-- C7 witness: the disabled-backend contract at a concrete configuration. -/
theorem s3_disabled_contract_witness :
    store ⟨⟨"b".data, false, false⟩, "u".data, false⟩ "2024".data
        ⟨"gba".data, "/roms/gba/x.sav".data, "x.sav".data, 5, .save⟩
        (.ok ()) (fun _ => .ok ()) (.ok ()) = (.ok (), [])
    ∧ (retrieve ⟨⟨"b".data, false, false⟩, "u".data, false⟩ ⟨none, none⟩
        (.ok none) (fun _ => .ok ()) (.ok ()) (.ok ())) = (.error .notImplemented, []) :=
  ⟨(s3_disabled_contract ⟨⟨"b".data, false, false⟩, "u".data, false⟩ rfl "2024".data
      ⟨"gba".data, "/roms/gba/x.sav".data, "x.sav".data, 5, .save⟩ [] ⟨none, none⟩
      (.ok ()) (fun _ => .ok ()) (.ok ()) (fun _ => .ok ()) (fun _ _ => .ok ())
      (fun _ => .ok ()) (.ok none) (fun _ => .ok ()) (.ok ()) (.ok ())
      (fun _ => .notFound) .found (.ok ()) (.ok ())).1,
    (s3_disabled_contract ⟨⟨"b".data, false, false⟩, "u".data, false⟩ rfl "2024".data
      ⟨"gba".data, "/roms/gba/x.sav".data, "x.sav".data, 5, .save⟩ [] ⟨none, none⟩
      (.ok ()) (fun _ => .ok ()) (.ok ()) (fun _ => .ok ()) (fun _ _ => .ok ())
      (fun _ => .ok ()) (.ok none) (fun _ => .ok ()) (.ok ()) (.ok ())
      (fun _ => .notFound) .found (.ok ()) (.ok ())).2.2.1⟩

/-- C8 counterexample: with the bucket absent and creation not permitted,
Init returns success without creating anything — it does not fail and
propagates no existence-check failure. -/
theorem s3Init_absent_without_create_succeeds :
    (s3Init ⟨⟨"b".data, true, false⟩, "u".data, false⟩ .notFound (.ok ()) (.ok ())).1
        = .ok ()
    ∧ Effect.createBucket
        ∉ (s3Init ⟨⟨"b".data, true, false⟩, "u".data, false⟩ .notFound (.ok ()) (.ok ())).2 :=
  ⟨rfl, by decide⟩

/-- C8 (amended): Init checks whether the bucket exists; if absent and
creation is permitted it creates it (creation failures propagate); a
failure of the existence check itself propagates unwrapped; but when the
bucket is absent and creation is not permitted Init returns success without
creating — absence alone is not an error. -/
theorem s3Init_spec (s : s3) (createBucketRes dynamoInitRes : Except Nat Unit) :
    (∀ e, s3Init s (.errRes e) createBucketRes dynamoInitRes
        = (.error (.raw e), [.headBucket]))
    ∧ (s.cfg.createMissingResources = true →
        Effect.createBucket ∈ (s3Init s .notFound createBucketRes dynamoInitRes).2
        ∧ ∀ e, createBucketRes = .error e →
            (s3Init s .notFound createBucketRes dynamoInitRes).1 = .error (.raw e))
    ∧ (s.cfg.createMissingResources = false →
        Effect.createBucket ∉ (s3Init s .notFound createBucketRes dynamoInitRes).2
        ∧ (s.hasDynamoClient = false →
            s3Init s .notFound createBucketRes dynamoInitRes = (.ok (), [.headBucket])))
    ∧ Effect.createBucket ∉ (s3Init s .found createBucketRes dynamoInitRes).2 := by
  refine ⟨fun e => rfl, ?_, ?_, ?_⟩
  · intro hc
    constructor
    · simp only [s3Init, checkIfResourcesExist, hc, Bool.not_false, Bool.true_and, if_true]
      rcases createBucketRes with e | ⟨⟩
      · simp
      · by_cases hdc : s.hasDynamoClient <;> simp only [hdc, if_true, if_false] <;>
          rcases dynamoInitRes with e | ⟨⟩ <;> simp
    · intro e hcb
      simp [s3Init, checkIfResourcesExist, hc, hcb]
  · intro hc
    constructor
    · simp only [s3Init, checkIfResourcesExist, hc, Bool.not_false, Bool.and_false, if_false]
      by_cases hdc : s.hasDynamoClient <;> simp only [hdc, if_true, if_false] <;>
        rcases dynamoInitRes with e | ⟨⟩ <;> simp
    · intro hdc
      simp [s3Init, checkIfResourcesExist, hc, hdc]
  · simp only [s3Init, checkIfResourcesExist, Bool.not_true, Bool.false_and, if_false]
    by_cases hdc : s.hasDynamoClient <;> simp only [hdc, if_true, if_false] <;>
      rcases dynamoInitRes with e | ⟨⟩ <;> simp

/-- C8 witness: absent bucket and permitted creation at a concrete
configuration performs the CreateBucket call. -/
theorem s3Init_spec_witness :
    Effect.createBucket
      ∈ (s3Init ⟨⟨"b".data, true, true⟩, "u".data, false⟩ .notFound (.ok ()) (.ok ())).2 :=
  ((s3Init_spec ⟨⟨"b".data, true, true⟩, "u".data, false⟩ (.ok ()) (.ok ())).2.1 rfl).1

/-- C9: on an enabled object store, a retrieve request whose ToRetrieve or
Destination file is nil returns the NotImplemented error (the very error the
disabled-backend path signals) and performs no external call. -/
theorem retrieve_nil_request_not_implemented (s : s3) (request : RetrieveFileRequest)
    (metaLookup : Except Nat (Option FileMetadata))
    (getObjectRes : Str → Except Nat Unit) (openDestRes copyRes : Except Nat Unit)
    (henabled : s.cfg.enabled = true)
    (hnil : request.toRetrieve = none ∨ request.destination = none) :
    retrieve s request metaLookup getObjectRes openDestRes copyRes
      = (.error .notImplemented, [])
    ∧ (retrieve s request metaLookup getObjectRes openDestRes copyRes).1
        = (retrieve ⟨⟨s.cfg.bucket, false, s.cfg.createMissingResources⟩, s.username,
            s.hasDynamoClient⟩ request metaLookup getObjectRes openDestRes copyRes).1 := by
  have hmain : retrieve s request metaLookup getObjectRes openDestRes copyRes
      = (.error .notImplemented, []) := by
    rcases request with ⟨toR, dst⟩
    rcases hnil with h | h
    · simp only at h
      subst h
      simp only [retrieve, henabled, Bool.not_true, Bool.false_eq_true, if_false]
    · simp only at h
      subst h
      rcases toR with _ | f <;>
        simp only [retrieve, henabled, Bool.not_true, Bool.false_eq_true, if_false]
  exact ⟨hmain, by rw [hmain]; rfl⟩

/-- C9 witness: a concrete enabled store with a nil ToRetrieve. -/
theorem retrieve_nil_request_not_implemented_witness :
    retrieve ⟨⟨"b".data, true, false⟩, "u".data, true⟩
        ⟨none, some ⟨"gba".data, "/roms/gba/x.sav".data, "x.sav".data, 5, .save⟩⟩
        (.ok none) (fun _ => .ok ()) (.ok ()) (.ok ())
      = (.error .notImplemented, []) :=
  (retrieve_nil_request_not_implemented ⟨⟨"b".data, true, false⟩, "u".data, true⟩
    ⟨none, some ⟨"gba".data, "/roms/gba/x.sav".data, "x.sav".data, 5, .save⟩⟩
    (.ok none) (fun _ => .ok ()) (.ok ()) (.ok ()) rfl (Or.inl rfl)).1

/-- C1 witness: at equal local and remote timestamps the decision is
download. -/
theorem syncFile_decision_witness :
    syncFileDecide 5 (some 5) = SyncAction.download :=
  (syncFile_decision 5 (some 5)).2.2.2.1

end RetropieUtils
